import Mathlib

/-!
Verification development for the bookmark data-validator pipeline.

The Python sources are shallowly embedded: YAML/JSON values become the
`Json` family below (Python dicts are association lists in insertion
order, as CPython guarantees), environment access becomes an explicit
`Env` record of `Option String`, fallible code returns `Except`, and the
external collaborators (Fernet cipher, HTTP transport, YAML parser) are
oracle parameters.
-/

/- Values in the YAML/JSON data model (`yaml.safe_load` output and
JSON-Schema instances).  The array and object spines are their own
inductives so that all recursions below are structural and reduce in the
kernel.  A Python dict is an association list in insertion order
(CPython guarantees order and unique keys). -/
mutual
inductive Json where
  | null : Json
  | bool (b : Bool) : Json
  | num (n : Int) : Json
  | str (s : String) : Json
  | arr (xs : JsonArr) : Json
  | obj (kvs : JsonObj) : Json
deriving DecidableEq

inductive JsonArr where
  | nil : JsonArr
  | cons (hd : Json) (tl : JsonArr) : JsonArr
deriving DecidableEq

inductive JsonObj where
  | nil : JsonObj
  | cons (k : String) (v : Json) (tl : JsonObj) : JsonObj
deriving DecidableEq
end

namespace JsonObj

/-- `d.get(k)` / `k in d`: first binding of `k`. -/
def lookup : JsonObj → String → Option Json
  | .nil, _ => none
  | .cons k' v tl, k => if k' = k then some v else tl.lookup k

/-- `k in d`. -/
def containsKey (o : JsonObj) (k : String) : Bool :=
  (o.lookup k).isSome

/-- `d.get(k, default)`. -/
def getD (o : JsonObj) (k : String) (default : Json) : Json :=
  (o.lookup k).getD default

/-- `d[k] = v`: update the existing binding in place, else append. -/
def insert : JsonObj → String → Json → JsonObj
  | .nil, k, v => .cons k v .nil
  | .cons k' v' tl, k, v =>
      if k' = k then .cons k' v tl else .cons k' v' (tl.insert k v)

/-- `del d[k]` / `d.pop(k, default)`'s removal effect. -/
def erase : JsonObj → String → JsonObj
  | .nil, _ => .nil
  | .cons k' v' tl, k => if k' = k then tl else .cons k' v' (tl.erase k)

end JsonObj

namespace Json

def isStr : Json → Bool
  | .str _ => true
  | _ => false

def isObj : Json → Bool
  | .obj _ => true
  | _ => false

def isArr : Json → Bool
  | .arr _ => true
  | _ => false

/-- Python truthiness of a parsed YAML value (`if not yaml_content`). -/
def pyFalsy : Json → Bool
  | .null => true
  | .bool b => !b
  | .num n => n == 0
  | .str s => s.isEmpty
  | .arr .nil => true
  | .arr _ => false
  | .obj .nil => true
  | .obj _ => false

/-- Python `str()` as used in the f-strings that build location strings.
The provenance values interpolated there are strings and integers; other
shapes are rendered by a fixed placeholder (no claim exercises them). -/
def display : Json → String
  | .str s => s
  | .num n => toString n
  | .bool true => "True"
  | .bool false => "False"
  | .null => "None"
  | .arr _ => "<list>"
  | .obj _ => "<dict>"

end Json

namespace JsonArr

def any (p : Json → Bool) : JsonArr → Bool
  | .nil => false
  | .cons x xs => p x || xs.any p

end JsonArr

/-! ## The JSON-Schema applied by the validation engine

`BookmarkJsonSchema._get_fallback_schema` (src/app/schema_rules/data_schema.py,
lines 176-222) is a draft-07 schema: an array of bookmark objects with
required fields `name, url, domain, category, packages`, typed properties,
`additionalProperties: false`, and a recursive `packageTag` definition
(`tag` required string, `subtags` array of `packageTag`,
`additionalProperties: false`).  The functions below evaluate that fixed
schema document the way `jsonschema.validate` does; note that under
`jsonschema`'s default configuration `"format": "uri"` is annotation-only
and enforces nothing beyond `"type": "string"`. -/

mutual
/-- `#/definitions/packageTag` applied to one instance value. -/
def packageTagOk : Json → Bool
  | .obj kvs => kvs.containsKey "tag" && packageTagFieldsOk kvs
  | _ => false

/-- `properties` + `additionalProperties: false` of `packageTag`, checked
binding by binding. -/
def packageTagFieldsOk : JsonObj → Bool
  | .nil => true
  | .cons k v tl =>
      (if k = "tag" then v.isStr
       else if k = "subtags" then packageTagListOk v
       else false) && packageTagFieldsOk tl

/-- An array whose items all satisfy `#/definitions/packageTag` (used by
both `subtags` and the top-level `packages` property). -/
def packageTagListOk : Json → Bool
  | .arr xs => packageTagArrOk xs
  | _ => false

def packageTagArrOk : JsonArr → Bool
  | .nil => true
  | .cons x xs => packageTagOk x && packageTagArrOk xs
end

/-- The `properties` entry of the bookmark item schema for one key, also
encoding `additionalProperties: false` (unknown keys are invalid). -/
def bookmarkFieldOk : String → Json → Bool
  | "name", v => v.isStr
  | "url", v => v.isStr
  | "domain", v => v.isStr
  | "category", v => v.isStr
  | "packages", v => packageTagListOk v
  | "meta", v => v.isObj
  | _, _ => false

def bookmarkFieldsOk : JsonObj → Bool
  | .nil => true
  | .cons k v tl => bookmarkFieldOk k v && bookmarkFieldsOk tl

/-- `required: [name, url, domain, category, packages]`. -/
def bookmarkRequiredOk (kvs : JsonObj) : Bool :=
  kvs.containsKey "name" && kvs.containsKey "url" && kvs.containsKey "domain"
    && kvs.containsKey "category" && kvs.containsKey "packages"

/-- The `items` sub-schema of the fallback schema on one instance value. -/
def bookmarkItemOk : Json → Bool
  | .obj kvs => bookmarkRequiredOk kvs && bookmarkFieldsOk kvs
  | _ => false

/-- The whole fallback schema (`type: array` of bookmark items) on the
instance list that `validate` passes to `jsonschema.validate`. -/
def bookmarkArraySchemaOk (data : List Json) : Bool :=
  data.all bookmarkItemOk

/-- `BaseJsonSchema.validate_json_schema` (data_schema.py, lines 78-113)
specialised to the fallback schema: `jsonschema.validate` raises on the
first violation, so the returned error list is empty or a singleton. -/
def validate_json_schema (data : List Json) (location : String) : List String :=
  if bookmarkArraySchemaOk data then []
  else [s!"❌ {location} - JSON Schema 검증 오류"]

example : packageTagOk (.obj (.cons "tag" (.str "frontend")
    (.cons "subtags" (.arr (.cons (.obj (.cons "tag" (.str "react") .nil)) .nil)) .nil))) = true := by
  decide

example : packageTagOk (.obj (.cons "key" (.str "frontend") .nil)) = false := by decide

example : bookmarkItemOk (.obj (.cons "name" (.str "n") (.cons "url" (.str "https://e.com")
    (.cons "domain" (.str "e.com") (.cons "category" (.str "c")
    (.cons "packages" (.arr .nil) .nil)))))) = true := by decide

example : bookmarkItemOk (.obj (.cons "name" (.str "n") (.cons "url" (.str "https://e.com")
    (.cons "domain" (.str "e.com") (.cons "category" (.str "c")
    (.cons "packages" (.str "x") .nil)))))) = false := by decide

/-! ## The validation engine

`BookmarkJsonSchema.validate` (src/app/schema_rules/data_schema.py, lines
224-291).  A bookmark record is a Python dict (`JsonObj`).  The engine's
observable output is its boolean result plus the two error streams it
logs: duplicate-URL errors as `(location, url)` pairs in emission order,
and JSON-Schema errors. -/

/-- The location string computed at the top of the per-record loop from
the provenance fields (`_source_file`, `_source_project`, `_index`). -/
def bookmarkLocation (bookmark : JsonObj) : String :=
  let source_file := bookmark.getD "_source_file" (.str "unknown")
  let source_project := bookmark.getD "_source_project" (.str "unknown")
  let index := bookmark.getD "_index" (.num 0)
  if source_project == Json.str "current" then
    let f := source_file.display
    let i := index.display
    s!"{f}, 항목 {i}"
  else
    let p := source_project.display
    let f := source_file.display
    s!"{p}/{f}"

/-- The metadata-removal loop: `del bookmark_copy[f]` for the three
provenance fields (guarded by `if f in bookmark_copy`, so erasing an
absent key is a no-op, as in the source). -/
def stripMeta (b : JsonObj) : JsonObj :=
  ((b.erase "_source_file").erase "_source_project").erase "_index"

/-- Result of one `validate` call: the returned boolean plus the logged
duplicate-URL errors and JSON-Schema errors. -/
structure ValidationResult where
  has_errors : Bool
  dup_errors : List (String × Json)
  schema_errors : List String
deriving DecidableEq

/-- First loop of `validate` (lines 242-282): per record, build the
location string, strip provenance into a copy, run the duplicate-URL
check against the running `all_urls` set, tag the copy with `_location`
and collect it into `clean_bookmarks`. -/
def validateLoop1 : List JsonObj → List Json → Bool → List (String × Json) → List JsonObj →
    List Json × Bool × List (String × Json) × List JsonObj
  | [], all_urls, has_errors, dup_log, clean => (all_urls, has_errors, dup_log, clean)
  | bookmark :: rest, all_urls, has_errors, dup_log, clean =>
      let location := bookmarkLocation bookmark
      let bookmark_copy := stripMeta bookmark
      let (all_urls, has_errors, dup_log) :=
        match bookmark_copy.lookup "url" with
        | some url =>
            if url ∈ all_urls then (all_urls, true, dup_log ++ [(location, url)])
            else (all_urls ++ [url], has_errors, dup_log)
        | none => (all_urls, has_errors, dup_log)
      let bookmark_copy := bookmark_copy.insert "_location" (.str location)
      validateLoop1 rest all_urls has_errors dup_log (clean ++ [bookmark_copy])

/-- Second loop of `validate` (lines 284-289): pop `_location` off each
clean copy and run the per-record JSON-Schema check on the singleton list
`[bookmark]`. -/
def validateLoop2 : List JsonObj → Bool → List String → Bool × List String
  | [], has_errors, log => (has_errors, log)
  | bookmark :: rest, has_errors, log =>
      let location := (bookmark.getD "_location" (.str "unknown")).display
      let bookmark := bookmark.erase "_location"
      let schema_errors := validate_json_schema [.obj bookmark] location
      validateLoop2 rest (has_errors || !schema_errors.isEmpty) (log ++ schema_errors)

namespace BookmarkJsonSchema

/-- `validate` with the seen-URL set made explicit: the body of
`BookmarkJsonSchema.validate` after the initialisation
`has_errors = False; all_urls = set()`. -/
def validateFrom (all_urls : List Json) (bookmarks : List JsonObj) : ValidationResult :=
  let r1 := validateLoop1 bookmarks all_urls false [] []
  let r2 := validateLoop2 r1.2.2.2 r1.2.1 []
  ⟨r2.1, r1.2.2.1, r2.2⟩

/-- `BookmarkJsonSchema.validate`: the seen-URL set starts empty
(`all_urls = set()` is executed inside every call, line 238). -/
def validate (bookmarks : List JsonObj) : ValidationResult :=
  validateFrom [] bookmarks

end BookmarkJsonSchema

def sampleBookmark (name url : String) : JsonObj :=
  .cons "name" (.str name) (.cons "url" (.str url)
    (.cons "domain" (.str "e.com") (.cons "category" (.str "c")
    (.cons "packages" (.arr .nil)
    (.cons "_source_file" (.str "a.yml") (.cons "_source_project" (.str "current")
    (.cons "_index" (.num 1) .nil)))))))

example : (BookmarkJsonSchema.validate [sampleBookmark "a" "https://e.com"]).has_errors = false := by
  decide

example :
    (BookmarkJsonSchema.validate
      [sampleBookmark "a" "https://e.com", sampleBookmark "b" "https://e.com"]).dup_errors
    = [("a.yml, 항목 1", .str "https://e.com")] := by decide

/-! ## Duplicate-URL semantics (claim C1) -/

/-- The `url` value of a record. -/
def recordUrl (b : JsonObj) : Option Json :=
  b.lookup "url"

theorem JsonObj.lookup_erase_ne (k k' : String) (h : k ≠ k') :
    ∀ o : JsonObj, (o.erase k').lookup k = o.lookup k
  | .nil => rfl
  | .cons k'' v tl => by
      by_cases hk : k'' = k'
      · have hk2 : k' ≠ k := fun h2 => h h2.symm
        simp [JsonObj.erase, JsonObj.lookup, hk, hk2]
      · simp [JsonObj.erase, hk, JsonObj.lookup, JsonObj.lookup_erase_ne k k' h tl]

theorem JsonObj.lookup_insert_ne (k k' : String) (v : Json) (h : k ≠ k') :
    ∀ o : JsonObj, (o.insert k' v).lookup k = o.lookup k
  | .nil => by
      have hk2 : k' ≠ k := fun h2 => h h2.symm
      simp [JsonObj.insert, JsonObj.lookup, hk2]
  | .cons k'' v' tl => by
      by_cases hk : k'' = k'
      · have hk2 : k' ≠ k := fun h2 => h h2.symm
        simp [JsonObj.insert, JsonObj.lookup, hk, hk2]
      · simp [JsonObj.insert, hk, JsonObj.lookup, JsonObj.lookup_insert_ne k k' v h tl]

/-- Stripping the provenance fields does not touch the `url` binding. -/
theorem lookup_stripMeta_url (b : JsonObj) :
    (stripMeta b).lookup "url" = recordUrl b := by
  unfold stripMeta recordUrl
  rw [JsonObj.lookup_erase_ne _ _ (by decide),
    JsonObj.lookup_erase_ne _ _ (by decide),
    JsonObj.lookup_erase_ne _ _ (by decide)]

/-- Spec-side characterization of the claim: record `i` is a duplicate
exactly when an earlier record of the sequence bears the same `url`
value. -/
def specIsDuplicate (bookmarks : List JsonObj) (i : Nat) : Bool :=
  match recordUrl (bookmarks.getD i .nil) with
  | some u => (bookmarks.take i).any (fun b => decide (recordUrl b = some u))
  | none => false

/-- Spec-side list of expected duplicate-URL reports: one entry per
duplicate record, at that record's own location, in sequence order. -/
def specDuplicateReports (bookmarks : List JsonObj) : List (String × Json) :=
  ((List.range bookmarks.length).filter (specIsDuplicate bookmarks)).map fun i =>
    (bookmarkLocation (bookmarks.getD i .nil), (recordUrl (bookmarks.getD i .nil)).getD .null)

/-- Generalisation of `specIsDuplicate` to a non-empty initial seen-URL
set, matching `validateLoop1`'s accumulator. -/
def specIsDuplicateFrom (seen : List Json) (bookmarks : List JsonObj) (i : Nat) : Bool :=
  match recordUrl (bookmarks.getD i .nil) with
  | some u => decide (u ∈ seen) || (bookmarks.take i).any (fun b => decide (recordUrl b = some u))
  | none => false

def specReportsFrom (seen : List Json) (bookmarks : List JsonObj) : List (String × Json) :=
  ((List.range bookmarks.length).filter (specIsDuplicateFrom seen bookmarks)).map fun i =>
    (bookmarkLocation (bookmarks.getD i .nil), (recordUrl (bookmarks.getD i .nil)).getD .null)

/-- How the seen-URL set evolves over one record. -/
def seenStep (seen : List Json) (b : JsonObj) : List Json :=
  match recordUrl b with
  | some u => if u ∈ seen then seen else seen ++ [u]
  | none => seen

theorem specIsDuplicateFrom_empty : specIsDuplicateFrom [] = specIsDuplicate := by
  funext bookmarks i
  unfold specIsDuplicateFrom specIsDuplicate
  cases recordUrl (bookmarks.getD i .nil) <;> simp

theorem specIsDuplicateFrom_cons (seen : List Json) (b : JsonObj) (rest : List JsonObj) (i : Nat) :
    specIsDuplicateFrom seen (b :: rest) (i + 1)
    = specIsDuplicateFrom (seenStep seen b) rest i := by
  unfold specIsDuplicateFrom seenStep
  simp only [List.getD_cons_succ, List.take_succ_cons, List.any_cons]
  cases hb : recordUrl b with
  | none =>
      cases recordUrl (rest.getD i .nil) with
      | none => rfl
      | some u => simp
  | some u0 =>
      cases recordUrl (rest.getD i .nil) with
      | none => by_cases hmem : u0 ∈ seen <;> simp [hmem]
      | some u =>
          by_cases hmem : u0 ∈ seen
          · by_cases he : u0 = u
            · subst he
              simp [hmem]
            · simp [hmem, he]
          · by_cases he : u0 = u
            · subst he
              simp [hmem]
            · have he2 : ¬u = u0 := fun h => he h.symm
              simp [hmem, he, he2]

theorem filter_map_succ (p : Nat → Bool) :
    ∀ l : List Nat, (l.map Nat.succ).filter p = (l.filter (fun i => p (i + 1))).map Nat.succ
  | [] => rfl
  | a :: l => by
      simp only [List.map_cons, List.filter_cons, Nat.succ_eq_add_one]
      by_cases h : p (a + 1) <;> simp [h, filter_map_succ p l]

theorem specReportsFrom_cons (seen : List Json) (b : JsonObj) (rest : List JsonObj) :
    specReportsFrom seen (b :: rest)
    = (if specIsDuplicateFrom seen (b :: rest) 0
        then [(bookmarkLocation b, (recordUrl b).getD .null)] else [])
      ++ specReportsFrom (seenStep seen b) rest := by
  unfold specReportsFrom
  rw [List.length_cons, List.range_succ_eq_map, List.filter_cons, filter_map_succ]
  have hpred : (fun i => specIsDuplicateFrom seen (b :: rest) (i + 1))
      = specIsDuplicateFrom (seenStep seen b) rest := by
    funext i
    exact specIsDuplicateFrom_cons seen b rest i
  rw [hpred]
  by_cases h0 : specIsDuplicateFrom seen (b :: rest) 0 <;>
    simp [h0, List.map_map, Function.comp_def]

/-- The duplicate-URL log produced by the first loop of `validate` is
exactly the spec-side report list, for any initial accumulator. -/
theorem validateLoop1_dup_log :
    ∀ (bs : List JsonObj) (seen : List Json) (he : Bool) (log : List (String × Json))
      (clean : List JsonObj),
      (validateLoop1 bs seen he log clean).2.2.1 = log ++ specReportsFrom seen bs
  | [], seen, he, log, clean => by
      simp [validateLoop1, specReportsFrom]
  | b :: rest, seen, he, log, clean => by
      rw [specReportsFrom_cons]
      simp only [validateLoop1]
      rw [lookup_stripMeta_url]
      cases hb : recordUrl b with
      | none =>
          rw [validateLoop1_dup_log rest seen he log _]
          simp [specIsDuplicateFrom, seenStep, hb]
      | some u =>
          dsimp only
          by_cases hmem : u ∈ seen
          · rw [if_pos hmem]
            rw [validateLoop1_dup_log rest seen true (log ++ [(bookmarkLocation b, u)]) _]
            simp [specIsDuplicateFrom, seenStep, hb, hmem]
          · rw [if_neg hmem]
            rw [validateLoop1_dup_log rest (seen ++ [u]) he log _]
            simp [specIsDuplicateFrom, seenStep, hb, hmem]

/-- The engine's duplicate-URL error stream matches the spec-side
first-occurrence-wins characterization. -/
theorem validate_dup_errors_spec (bookmarks : List JsonObj) :
    (BookmarkJsonSchema.validate bookmarks).dup_errors = specDuplicateReports bookmarks := by
  show (validateLoop1 bookmarks [] false [] []).2.2.1 = _
  rw [validateLoop1_dup_log bookmarks [] false [] []]
  unfold specReportsFrom specDuplicateReports
  rw [specIsDuplicateFrom_empty]
  simp

/-- C1: the validation engine processes records in sequence order with a
single seen-URL set across the whole sequence: a record whose `url`
equals the `url` of an earlier record is reported as a duplicate-URL
violation at its own location, the first bearer of a url is never
reported, and for `[{url:U,...}, {url:U,...}]` exactly the second record
is flagged, at its own location. -/
theorem C1_duplicate_url_first_wins :
    (∀ bookmarks : List JsonObj,
        (BookmarkJsonSchema.validate bookmarks).dup_errors = specDuplicateReports bookmarks)
    ∧ (∀ (b₁ b₂ : JsonObj) (u : Json),
        recordUrl b₁ = some u → recordUrl b₂ = some u →
        (BookmarkJsonSchema.validate [b₁, b₂]).dup_errors = [(bookmarkLocation b₂, u)]) := by
  refine ⟨validate_dup_errors_spec, fun b₁ b₂ u h₁ h₂ => ?_⟩
  rw [validate_dup_errors_spec]
  have hr : List.range 2 = [0, 1] := rfl
  simp [specDuplicateReports, specIsDuplicate, hr, h₁, h₂]

/-- Witness for C1 at a concrete two-record sequence with equal urls. -/
theorem C1_duplicate_url_first_wins_witness :
    (BookmarkJsonSchema.validate
        [sampleBookmark "a" "https://e.com", sampleBookmark "b" "https://e.com"]).dup_errors
      = [(bookmarkLocation (sampleBookmark "b" "https://e.com"), Json.str "https://e.com")] :=
  C1_duplicate_url_first_wins.2 (sampleBookmark "a" "https://e.com")
    (sampleBookmark "b" "https://e.com") (.str "https://e.com") (by decide) (by decide)

/-! ## Determinism and statelessness of the engine (claim C9) -/

/-- Two successive object-level calls `schema.validate(bookmarks)` on the
same record sequence.  The object carries no attribute that `validate`
writes (its only attribute, the loaded schema document, is read-only for
`validate`), and `all_urls = set()` is executed inside each call, so the
second call starts from the same configuration as the first. -/
def validateTwice (bookmarks : List JsonObj) : ValidationResult × ValidationResult :=
  (BookmarkJsonSchema.validate bookmarks, BookmarkJsonSchema.validate bookmarks)

/-- C9: the engine is deterministic and keeps no state between
invocations: a second `validate` call on the same sequence returns the
same boolean and the same violation streams, each call running from a
freshly-constructed empty seen-URL set; and the fresh start is
load-bearing, since a carried-over seen-URL set would change the result
on some input. -/
theorem C9_validate_deterministic :
    (∀ bookmarks : List JsonObj,
        (validateTwice bookmarks).1 = (validateTwice bookmarks).2
        ∧ (validateTwice bookmarks).2 = BookmarkJsonSchema.validateFrom [] bookmarks)
    ∧ ∃ (carried : List Json) (bookmarks : List JsonObj),
        BookmarkJsonSchema.validateFrom carried bookmarks
        ≠ BookmarkJsonSchema.validateFrom [] bookmarks := by
  refine ⟨fun bookmarks => ⟨rfl, rfl⟩, [.str "https://e.com"],
    [sampleBookmark "a" "https://e.com"], ?_⟩
  decide

/-! ## Schema acceptance and rejection (claim C8) -/

theorem JsonObj.containsKey_erase_ne (o : JsonObj) (k k' : String) (h : k ≠ k') :
    (o.erase k').containsKey k = o.containsKey k := by
  unfold JsonObj.containsKey
  rw [JsonObj.lookup_erase_ne k k' h o]

theorem JsonObj.containsKey_insert_ne (o : JsonObj) (k k' : String) (v : Json) (h : k ≠ k') :
    (o.insert k' v).containsKey k = o.containsKey k := by
  unfold JsonObj.containsKey
  rw [JsonObj.lookup_insert_ne k k' v h o]

/-- What one `validate` call reports for a single record: exactly the
schema verdict on the provenance-stripped copy (the `_location` tag is
added in the first loop and popped again before the schema check). -/
theorem validate_singleton_has_errors (b : JsonObj) :
    (BookmarkJsonSchema.validate [b]).has_errors
    = !bookmarkItemOk (.obj (((stripMeta b).insert "_location"
        (.str (bookmarkLocation b))).erase "_location")) := by
  show (validateLoop2 (validateLoop1 [b] [] false [] []).2.2.2
      (validateLoop1 [b] [] false [] []).2.1 []).1 = _
  cases hurl : (stripMeta b).lookup "url" <;>
    simp [validateLoop1, validateLoop2, hurl, validate_json_schema, bookmarkArraySchemaOk] <;>
    by_cases hok : bookmarkItemOk (.obj (((stripMeta b).insert "_location"
      (.str (bookmarkLocation b))).erase "_location")) <;>
    simp [hok]

/-- A binding reached by `lookup` passes the per-field check whenever the
whole object does. -/
theorem bookmarkFieldsOk_lookup :
    ∀ (o : JsonObj) (k : String) (v : Json),
      o.lookup k = some v → bookmarkFieldsOk o = true → bookmarkFieldOk k v = true
  | .nil, k, v => by
      intro hl _
      simp [JsonObj.lookup] at hl
  | .cons k' v' tl, k, v => by
      intro hl hf
      simp only [bookmarkFieldsOk, Bool.and_eq_true] at hf
      by_cases hk : k' = k
      · subst hk
        simp [JsonObj.lookup] at hl
        rw [← hl]
        exact hf.1
      · simp only [JsonObj.lookup, if_neg hk] at hl
        exact bookmarkFieldsOk_lookup tl k v hl hf.2

/-- C8: under the schema the engine applies (after provenance
stripping), a record with no `packages` field is rejected, a record
whose `packages` value is a string is rejected, and an
otherwise-complete record with `packages: []` is accepted with no
violation of any kind. -/
theorem C8_schema_packages :
    (∀ b : JsonObj, (stripMeta b).containsKey "packages" = false →
        (BookmarkJsonSchema.validate [b]).has_errors = true)
    ∧ (∀ (b : JsonObj) (s : String), (stripMeta b).lookup "packages" = some (.str s) →
        (BookmarkJsonSchema.validate [b]).has_errors = true)
    ∧ BookmarkJsonSchema.validate [sampleBookmark "n" "https://e.com"]
        = ⟨false, [], []⟩ := by
  refine ⟨fun b h => ?_, fun b s h => ?_, by decide⟩
  · rw [validate_singleton_has_errors]
    have hc : (((stripMeta b).insert "_location"
        (.str (bookmarkLocation b))).erase "_location").containsKey "packages" = false := by
      rw [JsonObj.containsKey_erase_ne _ _ _ (by decide),
        JsonObj.containsKey_insert_ne _ _ _ _ (by decide)]
      exact h
    simp [bookmarkItemOk, bookmarkRequiredOk, hc]
  · rw [validate_singleton_has_errors]
    have hc : (((stripMeta b).insert "_location"
        (.str (bookmarkLocation b))).erase "_location").lookup "packages" = some (.str s) := by
      rw [JsonObj.lookup_erase_ne _ _ (by decide),
        JsonObj.lookup_insert_ne _ _ _ (by decide)]
      exact h
    have hfields : bookmarkFieldsOk (((stripMeta b).insert "_location"
        (.str (bookmarkLocation b))).erase "_location") = false := by
      by_contra hne
      have ht := bookmarkFieldsOk_lookup _ "packages" (.str s) hc
        (by revert hne; cases bookmarkFieldsOk (((stripMeta b).insert "_location"
          (.str (bookmarkLocation b))).erase "_location") <;> simp)
      simp [bookmarkFieldOk, packageTagListOk] at ht
    simp [bookmarkItemOk, hfields]

/-- Witness for C8 at concrete records: one with `packages` missing, one
with `packages: "x"`. -/
theorem C8_schema_packages_witness :
    (BookmarkJsonSchema.validate [JsonObj.cons "name" (.str "n")
        (.cons "url" (.str "https://e.com") (.cons "domain" (.str "e.com")
        (.cons "category" (.str "c") .nil)))]).has_errors = true
    ∧ (BookmarkJsonSchema.validate [JsonObj.cons "name" (.str "n")
        (.cons "url" (.str "https://e.com") (.cons "domain" (.str "e.com")
        (.cons "category" (.str "c") (.cons "packages" (.str "x") .nil))))]).has_errors = true :=
  ⟨C8_schema_packages.1 _ (by decide), C8_schema_packages.2.1 _ "x" (by decide)⟩

/-! ## Environment and credential resolution

`GitLabAuthenticator` (src/app/gitlab_utils/gitlab_auth.py).  The process
environment is a record of `Option String` (`os.environ.get`); Python
truthiness of such a value is "present and non-empty".  The Fernet
cipher is an external collaborator (spec §6): each credential kind's
decryption pipeline (`TokenCipher(key)` construction plus `.decrypt`) is
an oracle `String → String → Except Unit String` whose `error` stands
for the `ValueError` that `TokenCipher` raises on a bad key or
ciphertext. -/

structure Env where
  ci : Option String
  ci_server_url : Option String
  ci_project_dir : Option String
  bookmark_data_group_id : Option String
  encrypted_pat : Option String
  pat_encryption_key : Option String
  encrypted_deploy_token : Option String
  encryption_key : Option String
  deploy_token_username : Option String

/-- Python truthiness of an `os.environ.get` result. -/
def envTruthy : Option String → Bool
  | none => false
  | some s => !s.isEmpty

/-- Python truthiness of the value returned by `has_pat()` (an
`Option Bool` because the function can fall off its end and return
`None`). -/
def pyTruthy : Option Bool → Bool
  | none => false
  | some b => b

/-- A decryption pipeline: `TokenCipher(key=...)` construction followed
by `.decrypt(token)`; `error` is the `ValueError` either step raises. -/
def Cipher : Type := String → String → Except Unit String

namespace GitLabAuthenticator

/-- `has_deploy_token` (gitlab_auth.py, lines 111-116):
`all([encrypted_deploy_token, deploy_token_encryption_key, deploy_token_username])`. -/
def has_deploy_token (env : Env) : Bool :=
  envTruthy env.encrypted_deploy_token && envTruthy env.encryption_key
    && envTruthy env.deploy_token_username

/-- The value `all([encrypted_pat, pat_encryption_key])` that the body of
`has_pat` computes into its local variable. -/
def has_pat_local (env : Env) : Bool :=
  envTruthy env.encrypted_pat && envTruthy env.pat_encryption_key

/-- `has_pat` (gitlab_auth.py, lines 118-122): the body assigns
`has_pat = all([...])` to a local and then ends with no `return`
statement, so the Python function returns `None` whatever the
environment holds. -/
def has_pat (env : Env) : Option Bool :=
  let has_pat := has_pat_local env
  none

/-- The auth headers produced by the resolver, by shape: `Private-Token`
for the personal-access kind, HTTP Basic for the deploy kind. -/
inductive AuthHeaders where
  | privateToken (token : String)
  | basic (username token : String)
deriving DecidableEq

/-- Trace events recording when a credential kind's cipher pipeline is
actually entered. -/
inductive AuthEvent where
  | pat_decryption_attempted
  | deploy_decryption_attempted
deriving DecidableEq

/-- `_get_decrypted_pat` (gitlab_auth.py, lines 124-129): the
missing-variable check raises `ValueError` before `TokenCipher` is
constructed; only past it is the cipher pipeline entered. -/
def get_decrypted_pat (env : Env) (pat_cipher : Cipher) :
    List AuthEvent × Except Unit String :=
  if !(envTruthy env.encrypted_pat && envTruthy env.pat_encryption_key) then
    ([], .error ())
  else
    ([.pat_decryption_attempted],
      pat_cipher ((env.pat_encryption_key).getD "") ((env.encrypted_pat).getD ""))

/-- `get_pat_headers` (lines 131-133). -/
def get_pat_headers (env : Env) (pat_cipher : Cipher) :
    List AuthEvent × Except Unit AuthHeaders :=
  let (events, r) := get_decrypted_pat env pat_cipher
  (events, r.map fun token => .privateToken token)

/-- `_get_decrypted_deploy_token` (lines 135-140). -/
def get_decrypted_deploy_token (env : Env) (deploy_cipher : Cipher) :
    List AuthEvent × Except Unit String :=
  if !(envTruthy env.encrypted_deploy_token && envTruthy env.encryption_key
      && envTruthy env.deploy_token_username) then
    ([], .error ())
  else
    ([.deploy_decryption_attempted],
      deploy_cipher ((env.encryption_key).getD "") ((env.encrypted_deploy_token).getD ""))

/-- `get_deploy_token_headers` (lines 142-146): Basic auth from
`username:token`. -/
def get_deploy_token_headers (env : Env) (deploy_cipher : Cipher) :
    List AuthEvent × Except Unit AuthHeaders :=
  let (events, r) := get_decrypted_deploy_token env deploy_cipher
  (events, r.map fun token => .basic ((env.deploy_token_username).getD "") token)

/-- `get_api_auth_headers` (lines 148-154): try the personal-access
kind; on `ValueError` fall back to the deploy kind. -/
def get_api_auth_headers (env : Env) (pat_cipher deploy_cipher : Cipher) :
    List AuthEvent × Except Unit AuthHeaders :=
  let (events, r) := get_pat_headers env pat_cipher
  match r with
  | .ok h => (events, .ok h)
  | .error _ =>
      let (events2, r2) := get_deploy_token_headers env deploy_cipher
      (events ++ events2, r2)

/-- `get_general_auth_headers` (lines 156-158): always the deploy kind. -/
def get_general_auth_headers (env : Env) (deploy_cipher : Cipher) :
    List AuthEvent × Except Unit AuthHeaders :=
  get_deploy_token_headers env deploy_cipher

end GitLabAuthenticator

/-- `get_auth_headers_from_env` (src/app/tokens/token_manager.py, lines
124-143): API use resolves through `get_api_auth_headers`, general use
through `get_general_auth_headers`. -/
def get_auth_headers_from_env (env : Env) (pat_cipher deploy_cipher : Cipher)
    (for_api : Bool) : List GitLabAuthenticator.AuthEvent × Except Unit GitLabAuthenticator.AuthHeaders :=
  if for_api then GitLabAuthenticator.get_api_auth_headers env pat_cipher deploy_cipher
  else GitLabAuthenticator.get_general_auth_headers env deploy_cipher

/-- C5: `get_api_auth_headers` prefers the personal-access kind.  With
both credential kinds' environment inputs present (and the PAT pipeline
decrypting to `t`) it returns the `Private-Token` header.  With only the
deploy-kind variables present, the PAT missing-variable check fails
before any cipher is constructed, so no personal-access decryption is
ever attempted and the deploy `Basic` credential is returned. -/
theorem C5_api_auth_prefers_pat :
    (∀ (env : Env) (pat_cipher deploy_cipher : Cipher) (t : String),
        GitLabAuthenticator.has_pat_local env = true →
        GitLabAuthenticator.has_deploy_token env = true →
        pat_cipher ((env.pat_encryption_key).getD "") ((env.encrypted_pat).getD "") = .ok t →
        (GitLabAuthenticator.get_api_auth_headers env pat_cipher deploy_cipher).2
          = .ok (.privateToken t))
    ∧ (∀ (env : Env) (pat_cipher deploy_cipher : Cipher),
        GitLabAuthenticator.has_pat_local env = false →
        GitLabAuthenticator.has_deploy_token env = true →
        GitLabAuthenticator.AuthEvent.pat_decryption_attempted
            ∉ (GitLabAuthenticator.get_api_auth_headers env pat_cipher deploy_cipher).1
        ∧ ∀ t : String,
            deploy_cipher ((env.encryption_key).getD "")
                ((env.encrypted_deploy_token).getD "") = .ok t →
            (GitLabAuthenticator.get_api_auth_headers env pat_cipher deploy_cipher).2
              = .ok (.basic ((env.deploy_token_username).getD "") t)) := by
  constructor
  · intro env pat_cipher deploy_cipher t h1 _h2 h3
    unfold GitLabAuthenticator.has_pat_local at h1
    simp [GitLabAuthenticator.get_api_auth_headers, GitLabAuthenticator.get_pat_headers,
      GitLabAuthenticator.get_decrypted_pat, Except.map, h1, h3]
  · intro env pat_cipher deploy_cipher h1 h2
    unfold GitLabAuthenticator.has_pat_local at h1
    unfold GitLabAuthenticator.has_deploy_token at h2
    constructor
    · simp [GitLabAuthenticator.get_api_auth_headers, GitLabAuthenticator.get_pat_headers,
        GitLabAuthenticator.get_decrypted_pat, GitLabAuthenticator.get_deploy_token_headers,
        GitLabAuthenticator.get_decrypted_deploy_token, Except.map, h1, h2]
    · intro t h3
      simp [GitLabAuthenticator.get_api_auth_headers, GitLabAuthenticator.get_pat_headers,
        GitLabAuthenticator.get_decrypted_pat, GitLabAuthenticator.get_deploy_token_headers,
        GitLabAuthenticator.get_decrypted_deploy_token, Except.map, h1, h2, h3]

/-- Environment with both credential kinds fully present (the PAT and
deploy-token variables of the repository's CI configuration). -/
def envBoth : Env :=
  ⟨some "true", some "https://gitlab.example.com", none, some "456",
    some "EP", some "PK", some "ED", some "EK", some "deploy_user"⟩

/-- Environment with only the deploy-token variables present. -/
def envDeployOnly : Env :=
  ⟨some "true", some "https://gitlab.example.com", none, some "456",
    none, none, some "ED", some "EK", some "deploy_user"⟩

/-- A cipher pipeline that decrypts everything to `"tok"`. -/
def okCipher : Cipher := fun _ _ => .ok "tok"

/-- Witness for C5 at the two concrete environments. -/
theorem C5_api_auth_prefers_pat_witness :
    (GitLabAuthenticator.get_api_auth_headers envBoth okCipher okCipher).2
      = .ok (.privateToken "tok")
    ∧ GitLabAuthenticator.AuthEvent.pat_decryption_attempted
        ∉ (GitLabAuthenticator.get_api_auth_headers envDeployOnly okCipher okCipher).1
    ∧ (GitLabAuthenticator.get_api_auth_headers envDeployOnly okCipher okCipher).2
      = .ok (.basic "deploy_user" "tok") :=
  ⟨C5_api_auth_prefers_pat.1 envBoth okCipher okCipher "tok" (by decide) (by decide) rfl,
    (C5_api_auth_prefers_pat.2 envDeployOnly okCipher okCipher (by decide) (by decide)).1,
    (C5_api_auth_prefers_pat.2 envDeployOnly okCipher okCipher (by decide) (by decide)).2 "tok" rfl⟩

/-! ## The validator entry point and the orchestrator

`BookmarkValidator.validate_bookmarks_data`
(src/app/validators/bookmark_validator.py, lines 67-121) and
`DataValidationOrchestrator` (src/app/orchestrator/validator_runner.py).
Remote fetching (`self.fetcher.fetch_all_bookmarks`) is abstracted as an
`Except`-valued argument and the collaborator schema call
(`self.schema.validate_bookmarks`) as a boolean function argument. -/

inductive PyRuntimeError where
  | unboundLocal (name : String)
deriving DecidableEq

namespace BookmarkValidator

/-- `validate_bookmarks_data` (bookmark_validator.py, lines 67-121).
The local variable `has_errors` is assigned only in the fetch-exception
branch (line 100) and in the missing-variables branch (line 111); on the
successful-fetch path the read at line 116 (`if has_errors or
validation_errors:`) hits a never-assigned local, which is Python's
`UnboundLocalError`.  Note the schema collaborator call at line 114 runs
first, so `validation_errors` is still computed on every path. -/
def validate_bookmarks_data (env : Env) (fetch_result : Except String (List JsonObj))
    (validate_bookmarks : List JsonObj → Bool) : Except PyRuntimeError Nat :=
  let gitlab_url := env.ci_server_url
  let group_id := env.bookmark_data_group_id
  let has_deploy_token := GitLabAuthenticator.has_deploy_token env
  let has_pat := GitLabAuthenticator.has_pat env
  if envTruthy gitlab_url && envTruthy group_id && (has_deploy_token || pyTruthy has_pat) then
    match fetch_result with
    | .ok fetched =>
        let all_bookmarks := fetched
        let validation_errors := validate_bookmarks all_bookmarks
        .error (.unboundLocal "has_errors")
    | .error _ =>
        let has_errors := true
        let all_bookmarks : List JsonObj := []
        let validation_errors := validate_bookmarks all_bookmarks
        if has_errors || validation_errors then .ok 1 else .ok 0
  else
    let has_errors := true
    let all_bookmarks : List JsonObj := []
    let validation_errors := validate_bookmarks all_bookmarks
    if has_errors || validation_errors then .ok 1 else .ok 0

end BookmarkValidator

namespace DataValidationOrchestrator

/-- `check_environment` (validator_runner.py, lines 64-86): probe CI
membership, the base variables and both credential-presence checks.  The
Python `fetch_others` value is a truthiness chain; only its truthiness
is observed downstream, embedded here as `Bool`. -/
def check_environment (env : Env) : Bool × Bool × Option String :=
  let in_ci := env.ci.isSome
  let has_pat := GitLabAuthenticator.has_pat env
  let has_deploy_token := GitLabAuthenticator.has_deploy_token env
  let fetch_others := in_ci && envTruthy env.ci_server_url
      && envTruthy env.bookmark_data_group_id && (has_deploy_token || pyTruthy has_pat)
  let auth_method := if pyTruthy has_pat then some "PAT"
      else if has_deploy_token then some "Deploy Token" else none
  (in_ci, fetch_others, auth_method)

/-- `verify_environment_status` (lines 88-113): returns `True` exactly
when `fetch_others` is truthy (the logging is not modelled). -/
def verify_environment_status (in_ci fetch_others : Bool) (auth_method : Option String) : Bool :=
  if fetch_others then true else false

/-- `run` (lines 48-62): probe the environment, and if it does not
verify, return 0 immediately; only otherwise call
`self.validator.validate_bookmarks_data()`.  The second component
records whether that call was made. -/
def run (env : Env) (fetch_result : Except String (List JsonObj))
    (validate_bookmarks : List JsonObj → Bool) : Except PyRuntimeError Nat × Bool :=
  let r := check_environment env
  let is_verified := verify_environment_status r.1 r.2.1 r.2.2
  if !is_verified then (.ok 0, false)
  else (BookmarkValidator.validate_bookmarks_data env fetch_result validate_bookmarks, true)

end DataValidationOrchestrator

/-- Environment with only the personal-access variables (plus CI, server
URL and group id) set — the environment of claim C3. -/
def envPatOnly : Env :=
  ⟨some "true", some "https://gitlab.example.com", none, some "456",
    some "EP", some "PK", none, none, none⟩

/-- The empty environment (not in CI, nothing configured). -/
def envEmpty : Env :=
  ⟨none, none, none, none, none, none, none, none, none⟩

/-- C3 (code bug): with CI, server URL, group id and both PAT inputs
set and no deploy-token variables, the PAT presence condition
`all([encrypted_pat, pat_encryption_key])` that `has_pat`'s body
computes is `True`, yet `has_pat` returns `None` because its body never
returns the value — so `check_environment` routes to the local-only
path (`fetch_others` falsy) instead of remote fetching. -/
theorem C3_check_environment_pat_only :
    GitLabAuthenticator.has_pat_local envPatOnly = true
    ∧ GitLabAuthenticator.has_pat envPatOnly = none
    ∧ (DataValidationOrchestrator.check_environment envPatOnly).2.1 = false := by
  refine ⟨by decide, rfl, by decide⟩

/-- C2 (code bug): on the successful-fetch path with no validation
violations, `validate_bookmarks_data` does not return exit code 0 — it
raises `UnboundLocalError` reading the never-assigned local
`has_errors`. -/
theorem C2_validate_bookmarks_data_unbound_local :
    BookmarkValidator.validate_bookmarks_data envDeployOnly (.ok []) (fun _ => false)
      = .error (.unboundLocal "has_errors") := rfl

/-- C4 counterexample: a run of the orchestrator on the empty
environment terminates with exit code 0 without ever invoking the
validation engine, contradicting the claim that no path skips
validation. -/
theorem C4_run_skips_validation_counterexample :
    DataValidationOrchestrator.run envEmpty (.ok []) (fun _ => false)
      = (.ok 0, false) := rfl

/-- C4 (amended): the validation phase runs exactly when the
environment probe authorises remote fetching (`fetch_others` truthy);
when `verify_environment_status` returns `False`, `run` returns 0
immediately and the validation engine is never invoked. -/
theorem C4_run_validates_iff_probe_passes :
    ∀ (env : Env) (fetch_result : Except String (List JsonObj))
      (validate_bookmarks : List JsonObj → Bool),
      DataValidationOrchestrator.run env fetch_result validate_bookmarks
        = if (DataValidationOrchestrator.check_environment env).2.1
          then (BookmarkValidator.validate_bookmarks_data env fetch_result validate_bookmarks,
                true)
          else (.ok 0, false) := by
  intro env fetch_result validate_bookmarks
  unfold DataValidationOrchestrator.run DataValidationOrchestrator.verify_environment_status
  by_cases h : (DataValidationOrchestrator.check_environment env).2.1 <;> simp [h]

/-! ## Remote collection (claim C6)

`PatApiClient` (src/app/gitlab_utils/gitlab_client.py).  The remote
side is modelled as data: a project is its listing row plus its
repository tree and a raw-content fetch oracle (`Except Nat String`:
HTTP status on failure, body text on success).  Transport failures of
the listing calls themselves are outside this claim. -/

/-- Python's `str.endswith`, implemented on the character list so that
it evaluates inside the kernel. -/
def strEndsWith (s suffix : String) : Bool :=
  let l := s.data
  let suf := suffix.data
  if suf.length ≤ l.length then l.drop (l.length - suf.length) == suf else false

example : strEndsWith "bookmarks.yml" ".yml" = true := by decide
example : strEndsWith "README.md" ".yml" = false := by decide
example : strEndsWith "group/data-validator" "data-validator" = true := by decide

structure TreeEntry where
  type : String
  path : String
deriving DecidableEq

structure RemoteProject where
  id : Nat
  path_with_namespace : String
  tree : List TreeEntry
  raw : String → Except Nat String

structure YamlFileData where
  path : String
  content : String
  project_id : Nat
  project_path_for_log : String

structure GroupState where
  projects : List RemoteProject

namespace PatApiClient

/-- `fetch_group_projects` (lines 37-50): exclude projects whose
namespaced path ends with the validator-project suffix. -/
def fetch_group_projects (g : GroupState) : List RemoteProject :=
  g.projects.filter fun project => !(strEndsWith project.path_with_namespace "data-validator")

/-- The per-file loop of `fetch_project_yaml_files_content` (lines
63-87): any tree entry that is not a `.yml`/`.yaml` blob raises
`ValueError` for the project; an HTTP failure on a raw fetch is
re-raised as `ValueError` carrying the path and status. -/
def fetchFilesLoop (p : RemoteProject) (log_path : String) :
    List TreeEntry → Except String (List YamlFileData)
  | [] => .ok []
  | file_info :: rest =>
      if !(file_info.type == "blob"
          && (strEndsWith file_info.path ".yml" || strEndsWith file_info.path ".yaml")) then
        .error s!"GitLab 프로젝트({p.id})에 yaml 확장자가 아닌 파일이 존재합니다. file : {file_info.path}"
      else
        match p.raw file_info.path with
        | .ok text =>
            (fetchFilesLoop p log_path rest).map fun r =>
              ⟨file_info.path, text, p.id, log_path⟩ :: r
        | .error status =>
            .error s!"Failed to fetch file {file_info.path} from project {p.id}: {status}"

/-- `fetch_project_yaml_files_content` (lines 53-89). -/
def fetch_project_yaml_files_content (p : RemoteProject)
    (project_path_for_log : Option String) : Except String (List YamlFileData) :=
  fetchFilesLoop p (project_path_for_log.getD s!"Project ID: {p.id}") p.tree

/-- The per-project loop of `fetch_all_yaml_files_from_group` (lines
96-103): there is no `try`/`except` around the per-project call, so a
project error propagates. -/
def fetchAllLoop : List RemoteProject → Except String (List YamlFileData)
  | [] => .ok []
  | project :: rest =>
      match fetch_project_yaml_files_content project (some project.path_with_namespace) with
      | .error e => .error e
      | .ok files_content => (fetchAllLoop rest).map fun r => files_content ++ r

/-- `fetch_all_yaml_files_from_group` (lines 91-105). -/
def fetch_all_yaml_files_from_group (g : GroupState) : Except String (List YamlFileData) :=
  fetchAllLoop (fetch_group_projects g)

end PatApiClient

theorem Except.isOk_map {α β γ : Type} (f : β → γ) (e : Except α β) :
    (e.map f).isOk = e.isOk := by
  cases e <;> rfl

/-- A tree containing a non-YAML entry makes the per-project fetch fail,
wherever the entry sits. -/
theorem fetchFilesLoop_isOk_false (p : RemoteProject) (log_path : String) :
    ∀ (l : List TreeEntry) (fi : TreeEntry), fi ∈ l →
      (fi.type == "blob" && (strEndsWith fi.path ".yml" || strEndsWith fi.path ".yaml")) = false →
      (PatApiClient.fetchFilesLoop p log_path l).isOk = false
  | x :: rest, fi, hmem, hbad => by
      by_cases hx : (x.type == "blob"
          && (strEndsWith x.path ".yml" || strEndsWith x.path ".yaml")) = false
      · simp only [PatApiClient.fetchFilesLoop, hx, Bool.not_false, if_true]
        rfl
      · have hfi : fi ∈ rest := by
          rcases List.mem_cons.mp hmem with h | h
          · subst h
            exact absurd hbad hx
          · exact h
        simp only [Bool.not_eq_false] at hx
        simp only [PatApiClient.fetchFilesLoop, hx, Bool.not_true, if_false]
        cases p.raw x.path with
        | ok text =>
            simp [Except.isOk_map, fetchFilesLoop_isOk_false p log_path rest fi hfi hbad]
        | error status => rfl

/-- A failing project fails the whole group-level collection: no
`try`/`except` isolates projects from each other. -/
theorem fetchAllLoop_isOk_false :
    ∀ (ps : List RemoteProject) (p : RemoteProject), p ∈ ps →
      (PatApiClient.fetch_project_yaml_files_content p (some p.path_with_namespace)).isOk
        = false →
      (PatApiClient.fetchAllLoop ps).isOk = false
  | x :: rest, p, hmem, hfail => by
      rcases List.mem_cons.mp hmem with h | h
      · subst h
        simp only [PatApiClient.fetchAllLoop]
        cases hx : PatApiClient.fetch_project_yaml_files_content p
            (some p.path_with_namespace) with
        | ok files =>
            rw [hx] at hfail
            exact absurd hfail (by simp [Except.isOk, Except.toBool])
        | error e => rfl
      · simp only [PatApiClient.fetchAllLoop]
        cases hx : PatApiClient.fetch_project_yaml_files_content x
            (some x.path_with_namespace) with
        | ok files =>
            simp [Except.isOk_map, fetchAllLoop_isOk_false rest p h hfail]
        | error e => rfl

/-- A project with a stray non-YAML blob next to a sibling with a clean
YAML tree. -/
def badProject : RemoteProject :=
  ⟨1, "group/bad-project", [⟨"blob", "README.md"⟩, ⟨"blob", "bookmarks.yml"⟩],
    fun _ => .ok "- url: https://a.com"⟩

def goodProject : RemoteProject :=
  ⟨2, "group/good-project", [⟨"blob", "bookmarks.yml"⟩],
    fun _ => .ok "- url: https://b.com"⟩

def exampleGroup : GroupState := ⟨[badProject, goodProject]⟩

/-- C6 counterexample: in a group where one project holds a non-YAML
blob, the group-level collection aborts as a whole — it returns an error
and yields no records at all, even though the sibling project on its own
collects fine.  This refutes the claim that the error's isolation
boundary is that project only. -/
theorem C6_group_collection_aborts_counterexample :
    (PatApiClient.fetch_all_yaml_files_from_group exampleGroup).isOk = false
    ∧ (PatApiClient.fetch_project_yaml_files_content goodProject
        (some "group/good-project")).isOk = true := ⟨rfl, rfl⟩

/-- C6 (amended): a non-YAML blob in a project tree raises a typed
error for that project's collection, and the error propagates through
`fetch_all_yaml_files_from_group` — there is no per-project isolation,
so the whole group-level collection aborts and sibling projects'
records are not returned (isolation happens only at the orchestrator's
whole-remote-fetch boundary). -/
theorem C6_non_yaml_blob_aborts_group :
    (∀ (p : RemoteProject) (log_path : Option String) (fi : TreeEntry),
        fi ∈ p.tree →
        (fi.type == "blob" && (strEndsWith fi.path ".yml" || strEndsWith fi.path ".yaml")) = false →
        (PatApiClient.fetch_project_yaml_files_content p log_path).isOk = false)
    ∧ (∀ (g : GroupState) (p : RemoteProject),
        p ∈ PatApiClient.fetch_group_projects g →
        (PatApiClient.fetch_project_yaml_files_content p (some p.path_with_namespace)).isOk
          = false →
        (PatApiClient.fetch_all_yaml_files_from_group g).isOk = false) := by
  constructor
  · intro p log_path fi hmem hbad
    exact fetchFilesLoop_isOk_false p _ p.tree fi hmem hbad
  · intro g p hmem hfail
    exact fetchAllLoop_isOk_false (PatApiClient.fetch_group_projects g) p hmem hfail

/-- Witness for the amended C6 at the concrete group. -/
theorem C6_non_yaml_blob_aborts_group_witness :
    (PatApiClient.fetch_project_yaml_files_content badProject
        (some "group/bad-project")).isOk = false
    ∧ (PatApiClient.fetch_all_yaml_files_from_group exampleGroup).isOk = false := by
  have hmem : badProject ∈ PatApiClient.fetch_group_projects exampleGroup := by
    have h : PatApiClient.fetch_group_projects exampleGroup = [badProject, goodProject] := rfl
    rw [h]
    exact List.mem_cons_self badProject _
  have hfi : (⟨"blob", "README.md"⟩ : TreeEntry) ∈ badProject.tree := by
    have h : badProject.tree = [⟨"blob", "README.md"⟩, ⟨"blob", "bookmarks.yml"⟩] := rfl
    rw [h]
    exact List.mem_cons_self _ _
  exact ⟨C6_non_yaml_blob_aborts_group.1 badProject (some "group/bad-project") _ hfi rfl,
    C6_non_yaml_blob_aborts_group.2 exampleGroup badProject hmem
      (C6_non_yaml_blob_aborts_group.1 badProject (some badProject.path_with_namespace) _ hfi rfl)⟩

/-! ## Local collection (claim C7)

`load_yaml_file` and `load_current_project_bookmarks`
(src/scripts/yaml_validator.py, lines 204-277).  A local file is its
path together with the outcome of `yaml.safe_load` on its content: a
parse error or a parsed `Json` value (the YAML parser is an external
collaborator). -/

/-- Provenance tagging of one accepted record (yaml_validator.py, lines
236-239): `_source_project`, `_source_file`, `_index` in that insertion
order, with the 1-based position. -/
def tagProvenance (yaml_file : String) (kvs : JsonObj) (index1 : Nat) : JsonObj :=
  ((kvs.insert "_source_project" (.str "current")).insert "_source_file"
      (.str yaml_file)).insert "_index" (.num (Int.ofNat index1))

/-- The per-element loop of `load_yaml_file` (lines 230-241): a
non-mapping element logs an error, sets the flag and is skipped
(`continue`); a mapping element is provenance-tagged and collected. -/
def loadItems (yaml_file : String) : JsonArr → Nat → List JsonObj × Bool
  | .nil, _ => ([], false)
  | .cons item rest, i =>
      match item with
      | .obj kvs =>
          let r := loadItems yaml_file rest (i + 1)
          (tagProvenance yaml_file kvs (i + 1) :: r.1, r.2)
      | _ =>
          let r := loadItems yaml_file rest (i + 1)
          (r.1, true)

/-- `load_yaml_file` (lines 204-250) on a file given as (path, parse
outcome): a read/parse failure sets the flag and yields nothing; a falsy
document (empty/None) is skipped without the flag; a non-list root sets
the flag and yields nothing; a list is walked element-wise. -/
def load_yaml_file (yf : String × Except String Json) : List JsonObj × Bool :=
  match yf.2 with
  | .error _ => ([], true)
  | .ok yaml_content =>
      if yaml_content.pyFalsy then ([], false)
      else
        match yaml_content with
        | .arr items => loadItems yf.1 items 0
        | _ => ([], true)

/-- The per-file loop of `load_current_project_bookmarks` (lines
272-275): extend the record list, OR the error flags. -/
def loadFilesLoop : List (String × Except String Json) → List JsonObj × Bool
  | [] => ([], false)
  | f :: rest =>
      let r := load_yaml_file f
      let r2 := loadFilesLoop rest
      (r.1 ++ r2.1, r.2 || r2.2)

/-- `load_current_project_bookmarks` (lines 252-277): an empty file set
short-circuits to `([], False)`; otherwise every file is loaded. -/
def load_current_project_bookmarks (yaml_files : List (String × Except String Json)) :
    List JsonObj × Bool :=
  if yaml_files.isEmpty then ([], false)
  else loadFilesLoop yaml_files

/-- Spec-side description of the element loop: the mapping elements of a
list document, paired with their 1-based positions. -/
def mappingElemsFrom : JsonArr → Nat → List (JsonObj × Nat)
  | .nil, _ => []
  | .cons (.obj kvs) rest, i => (kvs, i + 1) :: mappingElemsFrom rest (i + 1)
  | .cons _ rest, i => mappingElemsFrom rest (i + 1)

theorem loadItems_spec (yaml_file : String) :
    ∀ (items : JsonArr) (i : Nat),
      loadItems yaml_file items i
      = ((mappingElemsFrom items i).map fun e => tagProvenance yaml_file e.1 e.2,
          items.any fun item => !item.isObj)
  | .nil, i => rfl
  | .cons item rest, i => by
      cases item <;>
        simp [loadItems, mappingElemsFrom, JsonArr.any, Json.isObj,
          loadItems_spec yaml_file rest (i + 1)]

theorem loadFilesLoop_spec :
    ∀ yaml_files : List (String × Except String Json),
      loadFilesLoop yaml_files
      = (yaml_files.flatMap fun f => (load_yaml_file f).1,
          yaml_files.any fun f => (load_yaml_file f).2)
  | [] => rfl
  | f :: rest => by
      simp [loadFilesLoop, loadFilesLoop_spec rest, List.flatMap_cons]

/-- C7: local collection isolates failures at file granularity.  The
collected records are the per-file concatenation and the error flag is
the per-file disjunction, so one file's failure never discards another
file's records; a parse failure or a non-list root contributes zero
records with the flag set; an empty/falsy document is skipped without
the flag; and inside a list document the non-mapping elements set the
flag and are skipped while the mapping elements of the same file are
still collected and provenance-tagged. -/
theorem C7_local_collection_isolation :
    (∀ yaml_files : List (String × Except String Json),
        load_current_project_bookmarks yaml_files
        = (yaml_files.flatMap fun f => (load_yaml_file f).1,
            yaml_files.any fun f => (load_yaml_file f).2))
    ∧ (∀ (p : String) (e : String), load_yaml_file (p, .error e) = ([], true))
    ∧ (∀ (p : String) (y : Json), y.pyFalsy = true → load_yaml_file (p, .ok y) = ([], false))
    ∧ (∀ (p : String) (y : Json), y.pyFalsy = false → y.isArr = false →
        load_yaml_file (p, .ok y) = ([], true))
    ∧ (∀ (p : String) (items : JsonArr),
        loadItems p items 0
        = ((mappingElemsFrom items 0).map fun e => tagProvenance p e.1 e.2,
            items.any fun item => !item.isObj)) := by
  refine ⟨fun yaml_files => ?_, fun p e => rfl, fun p y h => ?_, fun p y h1 h2 => ?_,
    fun p items => loadItems_spec p items 0⟩
  · unfold load_current_project_bookmarks
    cases yaml_files with
    | nil => rfl
    | cons f rest => simp [loadFilesLoop_spec]
  · simp [load_yaml_file, h]
  · cases y <;> simp_all [load_yaml_file, Json.isArr]

/-- Witness for C7: a parse-error file, a null document, a non-list
document, and a mixed-element list document, collected together. -/
theorem C7_local_collection_isolation_witness :
    load_current_project_bookmarks
        [("good.yml", .ok (.arr (.cons (.obj (.cons "url" (.str "https://a.com") .nil))
            (.cons (.str "stray") .nil)))),
          ("broken.yml", .error "mapping values are not allowed here"),
          ("empty.yml", .ok .null),
          ("scalar.yml", .ok (.str "just text"))]
      = ([tagProvenance "good.yml" (.cons "url" (.str "https://a.com") .nil) 1], true)
    ∧ load_yaml_file ("broken.yml", .error "mapping values are not allowed here") = ([], true)
    ∧ load_yaml_file ("empty.yml", .ok .null) = ([], false)
    ∧ load_yaml_file ("scalar.yml", .ok (.str "just text")) = ([], true) := by
  refine ⟨?_, C7_local_collection_isolation.2.1 "broken.yml" _,
    C7_local_collection_isolation.2.2.1 "empty.yml" .null (by decide),
    C7_local_collection_isolation.2.2.2.1 "scalar.yml" (.str "just text") (by decide) (by decide)⟩
  rw [C7_local_collection_isolation.1]
  decide

/-! ## Frame property of `validate` (claim C10)

To state that `validate` leaves its input dictionaries untouched, the
mutation structure of the Python code is made explicit: a store holds
every dict object, records are references into it, `bookmark.copy()`
allocates a fresh object, and the `del`/assignment/`pop` operations of
`validate` are in-place updates on the referenced object.  `validate`
only ever updates the fresh copies it allocates, which is the content of
the claim. -/

abbrev Store := List JsonObj

/-- Dereference (a dangling reference yields the empty dict; the Python
code never has one). -/
def Store.getRef (s : Store) (r : Nat) : JsonObj :=
  s.getD r .nil

/-- In-place update of the object behind `r`. -/
def Store.setRef (s : Store) (r : Nat) (d : JsonObj) : Store :=
  s.set r d

/-- `dict.copy()`: allocate a fresh object with the same bindings. -/
def Store.alloc (s : Store) (d : JsonObj) : Store × Nat :=
  (s ++ [d], s.length)

/-- The duplicate-URL check of `validate` on one stripped copy (the
same lines 259-266 embedded inline in `validateLoop1`, named here so the
store-level loop stays readable). -/
def dupCheckRef (bookmark_copy : JsonObj) (all_urls : List Json) (has_errors : Bool) :
    List Json × Bool :=
  match bookmark_copy.lookup "url" with
  | some url =>
      if url ∈ all_urls then (all_urls, true) else (all_urls ++ [url], has_errors)
  | none => (all_urls, has_errors)

/-- First loop of `validate` with explicit references: read the record,
allocate `bookmark_copy = bookmark.copy()`, delete the provenance fields
on the copy, run the duplicate-URL check, and tag the copy with
`_location` in place. -/
def validateRefLoop1 : List Nat → Store → List Json → Bool → List Nat →
    Store × List Json × Bool × List Nat
  | [], store, all_urls, has_errors, clean => (store, all_urls, has_errors, clean)
  | r :: rest, store, all_urls, has_errors, clean =>
      let bookmark := store.getRef r
      let location := bookmarkLocation bookmark
      let store1 := (store.alloc bookmark).1
      let c := (store.alloc bookmark).2
      let store2 := store1.setRef c (stripMeta (store1.getRef c))
      let uh := dupCheckRef (store2.getRef c) all_urls has_errors
      let store3 := store2.setRef c ((store2.getRef c).insert "_location" (.str location))
      validateRefLoop1 rest store3 uh.1 uh.2 (clean ++ [c])

/-- Second loop of `validate` with explicit references: pop `_location`
off each clean copy in place and run the schema check on it. -/
def validateRefLoop2 : List Nat → Store → Bool → Store × Bool
  | [], store, has_errors => (store, has_errors)
  | c :: rest, store, has_errors =>
      let location := ((store.getRef c).getD "_location" (.str "unknown")).display
      let store := store.setRef c ((store.getRef c).erase "_location")
      let schema_errors := validate_json_schema [.obj (store.getRef c)] location
      validateRefLoop2 rest store (has_errors || !schema_errors.isEmpty)

/-- `BookmarkJsonSchema.validate` over the explicit store: returns the
final store, the boolean result, and the (unmutated) input reference
list it iterated. -/
def validateRef (store : Store) (bookmarks : List Nat) : Store × Bool × List Nat :=
  let r1 := validateRefLoop1 bookmarks store [] false []
  let r2 := validateRefLoop2 r1.2.2.2 r1.1 r1.2.2.1
  (r2.1, r2.2, bookmarks)

theorem Store.getD_set_ne :
    ∀ (l : Store) (r i : Nat) (v d : JsonObj), i ≠ r →
      (l.set r v).getD i d = l.getD i d
  | [], _, _, _, _, _ => rfl
  | x :: xs, 0, 0, v, d, h => absurd rfl h
  | x :: xs, 0, i + 1, v, d, h => rfl
  | x :: xs, r + 1, 0, v, d, h => rfl
  | x :: xs, r + 1, i + 1, v, d, h =>
      Store.getD_set_ne xs r i v d fun hh => h (congrArg Nat.succ hh)

theorem Store.getD_append_lt :
    ∀ (l : Store) (x : JsonObj) (i : Nat) (d : JsonObj), i < l.length →
      (l ++ [x]).getD i d = l.getD i d
  | [], x, i, d, h => absurd h (by simp)
  | y :: ys, x, 0, d, h => rfl
  | y :: ys, x, i + 1, d, h =>
      Store.getD_append_lt ys x i d (Nat.lt_of_succ_lt_succ h)

/-- Invariant of the first loop: the store only grows, every object at a
protected index (below `n`, in particular every input record) is
untouched, and every collected copy reference is at or above `n`. -/
theorem validateRefLoop1_frame (n : Nat) :
    ∀ (refs : List Nat) (store : Store) (all_urls : List Json) (he : Bool) (clean : List Nat),
      n ≤ store.length → (∀ c ∈ clean, n ≤ c) →
      n ≤ (validateRefLoop1 refs store all_urls he clean).1.length
      ∧ (∀ i, i < n →
          (validateRefLoop1 refs store all_urls he clean).1.getRef i = store.getRef i)
      ∧ (∀ c ∈ (validateRefLoop1 refs store all_urls he clean).2.2.2, n ≤ c)
  | [], store, all_urls, he, clean => by
      intro hlen hclean
      exact ⟨hlen, fun i _ => rfl, hclean⟩
  | r :: rest, store, all_urls, he, clean => by
      intro hlen hclean
      simp only [validateRefLoop1, Store.alloc]
      have hc : n ≤ store.length := hlen
      have hlen3 : n ≤ (((store ++ [store.getRef r]).setRef store.length
          (stripMeta ((store ++ [store.getRef r]).getRef store.length))).setRef store.length
          ((((store ++ [store.getRef r]).setRef store.length
            (stripMeta ((store ++ [store.getRef r]).getRef store.length))).getRef
              store.length).insert "_location"
            (.str (bookmarkLocation (store.getRef r))))).length := by
        simp [Store.setRef, List.length_set]
        omega
      have hclean2 : ∀ c ∈ clean ++ [store.length], n ≤ c := by
        intro c hcm
        rcases List.mem_append.mp hcm with h | h
        · exact hclean c h
        · rcases List.mem_singleton.mp h with rfl
          exact hc
      obtain ⟨ih1, ih2, ih3⟩ := validateRefLoop1_frame n rest _ _ _ _ hlen3 hclean2
      refine ⟨ih1, fun i hi => ?_, ih3⟩
      rw [ih2 i hi]
      have hne : i ≠ store.length := Nat.ne_of_lt (Nat.lt_of_lt_of_le hi hlen)
      unfold Store.getRef Store.setRef
      rw [Store.getD_set_ne _ _ _ _ _ hne, Store.getD_set_ne _ _ _ _ _ hne,
        Store.getD_append_lt _ _ _ _ (Nat.lt_of_lt_of_le hi hlen)]

/-- Invariant of the second loop: it only updates the copy references
(all at or above `n`), so protected indices are untouched. -/
theorem validateRefLoop2_frame (n : Nat) :
    ∀ (refs : List Nat) (store : Store) (he : Bool),
      (∀ c ∈ refs, n ≤ c) →
      ∀ i, i < n → (validateRefLoop2 refs store he).1.getRef i = store.getRef i
  | [], store, he => fun _ _ _ => rfl
  | c :: rest, store, he => by
      intro hrefs i hi
      simp only [validateRefLoop2]
      rw [validateRefLoop2_frame n rest _ _ (fun x hx => hrefs x (List.mem_cons_of_mem c hx))
        i hi]
      have hne : i ≠ c := Nat.ne_of_lt (Nat.lt_of_lt_of_le hi (hrefs c (List.mem_cons_self c rest)))
      unfold Store.getRef Store.setRef
      exact Store.getD_set_ne _ _ _ _ _ hne

/-- C10: `validate` leaves its input unchanged.  Every input dictionary
— all of its bindings, the provenance fields included — is identical in
the final store, because stripping and location-tagging act on freshly
allocated copies only; and the reference list the call iterates is
returned as it came, same length and order. -/
theorem C10_validate_frame :
    ∀ (store : Store) (bookmarks : List Nat),
      (validateRef store bookmarks).2.2 = bookmarks
      ∧ ∀ i, i < store.length →
          (validateRef store bookmarks).1.getRef i = store.getRef i := by
  intro store bookmarks
  refine ⟨rfl, fun i hi => ?_⟩
  unfold validateRef
  obtain ⟨h1, h2, h3⟩ := validateRefLoop1_frame store.length bookmarks store [] false []
    (Nat.le_refl _) (by intro c hcm; cases hcm)
  rw [validateRefLoop2_frame store.length _ _ _ h3 i hi]
  exact h2 i hi

/-- Witness for C10: one stored record with provenance fields, validated
through the store; its object is bitwise unchanged afterwards. -/
theorem C10_validate_frame_witness :
    (validateRef [sampleBookmark "a" "https://e.com"] [0]).2.2 = [0]
    ∧ (validateRef [sampleBookmark "a" "https://e.com"] [0]).1.getRef 0
      = Store.getRef [sampleBookmark "a" "https://e.com"] 0 :=
  ⟨(C10_validate_frame [sampleBookmark "a" "https://e.com"] [0]).1,
    (C10_validate_frame [sampleBookmark "a" "https://e.com"] [0]).2 0 (by decide)⟩
